import Mathlib

/-!
Verification development for the pgraft replication core.

This file gives a shallow embedding of the parts of the pgraft C sources
that the checked properties talk about: the key/value store
(src/pgraft_kv.c), the apply pipeline (src/pgraft_apply.c), the log
replication tracker (src/pgraft_log.c), the command and apply queues
(src/pgraft_util.c), cluster core initialization (src/pgraft_core.c) and
the persistence write paths (src/pgraft.c, src/pgraft_kv.c).

Machine integers (int32, int64, uint64) are modelled as Int or Nat; the
C code never relies on overflow in the modelled paths.  Fixed C char
buffers are modelled as String (all modelled writes are length-checked
or truncating copies of already-checked data).  Bounded C arrays with a
separate element count are modelled as the List of their populated
prefix.  Spinlock acquire/release pairs delimit the atomic blocks that
each function body below corresponds to; the locks themselves have no
behavioural content in a sequential model and are not represented.
-/

namespace PgRaft

/-! ## Generic list helper: in-place update of one array slot -/

/-- Update the element at position i of a list, leaving the rest
unchanged; out-of-range positions leave the list as is.  This models an
in-place write to one slot of a C array. -/
def listModify {α : Type} (f : α → α) : Nat → List α → List α
  | _, [] => []
  | 0, a :: l => f a :: l
  | n + 1, a :: l => a :: listModify f n l

/-! ## Key/value store (src/pgraft_kv.c, src/include/pgraft_kv.h) -/

/-- pgraft_kv_entry_t: one key/value slot.  key and value are fixed C
buffers of 256 and 1024 bytes; all writes to them are length-checked, so
String is a faithful carrier. -/
structure KVEntry where
  key : String
  value : String
  version : Int
  created_at : Int
  updated_at : Int
  log_index : Int
  deleted : Bool
deriving DecidableEq

/-- pgraft_kv_store_t minus the slock_t mutex.  The C struct holds a
fixed entries[1000] array together with num_entries; here entries is the
populated prefix (so num_entries = entries.length, which the C code
maintains at all times). -/
structure KVStore where
  entries : List KVEntry
  total_operations : Int
  last_applied_index : Int
  puts : Int
  deletes : Int
  gets : Int
deriving DecidableEq

/-- The zero-filled store produced by pgraft_kv_init_shared_memory when
the segment is created fresh. -/
def kvInit : KVStore :=
  { entries := []
    total_operations := 0
    last_applied_index := 0
    puts := 0
    deletes := 0
    gets := 0 }

/-- num_entries field of the C struct: number of populated slots. -/
def KVStore.num_entries (s : KVStore) : Nat := s.entries.length

/-- Match condition of the scan loop in pgraft_kv_find_entry_index:
slot is not a tombstone and strcmp on the key is 0. -/
def kvMatches (key : String) (e : KVEntry) : Bool :=
  !e.deleted && e.key == key

/-- pgraft_kv_find_entry_index, returning the found slot itself instead
of its array position: first non-deleted entry whose key compares
equal. -/
def pgraft_kv_find_entry (key : String) : List KVEntry → Option KVEntry
  | [] => none
  | e :: rest =>
      if kvMatches key e then some e else pgraft_kv_find_entry key rest

/-- The update carried out by pgraft_kv_put on the found live slot:
overwrite value, version++, refresh updated_at, record log_index, clear
the tombstone flag. -/
def kvPutUpdate (value : String) (log_index now : Int) (e : KVEntry) : KVEntry :=
  { e with
    value := value
    version := e.version + 1
    updated_at := now
    log_index := log_index
    deleted := false }

/-- Scan half of pgraft_kv_put: pgraft_kv_find_entry_index followed by
the in-place update of the found slot.  Returns none when no live slot
matches (the create-new branch of the C code runs instead). -/
def kvPutScan (key value : String) (log_index now : Int) :
    List KVEntry → Option (List KVEntry)
  | [] => none
  | e :: rest =>
      if kvMatches key e then
        some (kvPutUpdate value log_index now e :: rest)
      else
        match kvPutScan key value log_index now rest with
        | some rest' => some (e :: rest')
        | none => none

/-- The fresh slot written by the create-new branch of pgraft_kv_put. -/
def kvNewEntry (key value : String) (log_index now : Int) : KVEntry :=
  { key := key
    value := value
    version := 1
    created_at := now
    updated_at := now
    log_index := log_index
    deleted := false }

/-- pgraft_kv_put.  now stands for the GetCurrentTimestamp() call.
Returns the C int result (0 success, -1 failure) with the store after
the call.  The disk write that follows the unlock is modelled separately
(pgraft_kv_save_to_disk below). -/
def pgraft_kv_put (key value : String) (log_index now : Int) (s : KVStore) :
    Int × KVStore :=
  if 256 ≤ key.length then (-1, s)
  else if 1024 ≤ value.length then (-1, s)
  else
    match kvPutScan key value log_index now s.entries with
    | some entries' =>
        (0, { s with
              entries := entries'
              puts := s.puts + 1
              total_operations := s.total_operations + 1
              last_applied_index := log_index })
    | none =>
        if 1000 ≤ s.entries.length then (-1, s)
        else
          (0, { s with
                entries := s.entries ++ [kvNewEntry key value log_index now]
                puts := s.puts + 1
                total_operations := s.total_operations + 1
                last_applied_index := log_index })

/-- pgraft_kv_get: on a hit returns the slot's value and version and
bumps gets and total_operations; on a miss returns none leaving the
store as is. -/
def pgraft_kv_get (key : String) (s : KVStore) :
    Option (String × Int) × KVStore :=
  match pgraft_kv_find_entry key s.entries with
  | none => (none, s)
  | some e =>
      (some (e.value, e.version),
       { s with
         gets := s.gets + 1
         total_operations := s.total_operations + 1 })

/-- The update carried out by pgraft_kv_delete on the found live slot:
set the tombstone flag, refresh updated_at, record log_index,
version++. -/
def kvDeleteUpdate (log_index now : Int) (e : KVEntry) : KVEntry :=
  { e with
    deleted := true
    updated_at := now
    log_index := log_index
    version := e.version + 1 }

/-- Scan half of pgraft_kv_delete: find the live slot and tombstone it
in place. -/
def kvDeleteScan (key : String) (log_index now : Int) :
    List KVEntry → Option (List KVEntry)
  | [] => none
  | e :: rest =>
      if kvMatches key e then
        some (kvDeleteUpdate log_index now e :: rest)
      else
        match kvDeleteScan key log_index now rest with
        | some rest' => some (e :: rest')
        | none => none

/-- pgraft_kv_delete: soft delete of the live slot for the key; -1 when
the key has no live slot. -/
def pgraft_kv_delete (key : String) (log_index now : Int) (s : KVStore) :
    Int × KVStore :=
  match kvDeleteScan key log_index now s.entries with
  | none => (-1, s)
  | some entries' =>
      (0, { s with
            entries := entries'
            deletes := s.deletes + 1
            total_operations := s.total_operations + 1
            last_applied_index := log_index })

/-- pgraft_kv_exists. -/
def pgraft_kv_exists (key : String) (s : KVStore) : Bool :=
  (pgraft_kv_find_entry key s.entries).isSome

/-- pgraft_kv_put_local: the apply-path mutator.  It forwards to
pgraft_kv_put with log_index hard-coded to 0 (the C comment reads
"Skip replication flag"). -/
def pgraft_kv_put_local (key value : String) (now : Int) (s : KVStore) :
    Int × KVStore :=
  pgraft_kv_put key value 0 now s

/-- pgraft_kv_delete_local: forwards to pgraft_kv_delete with log_index
hard-coded to 0. -/
def pgraft_kv_delete_local (key : String) (now : Int) (s : KVStore) :
    Int × KVStore :=
  pgraft_kv_delete key 0 now s

/-- pgraft_kv_compact: keep the non-deleted slots in order, drop the
tombstones (the shift loop in the C code compacts in place and then
zeroes the tail, which is outside the populated prefix). -/
def pgraft_kv_compact (s : KVStore) : KVStore :=
  { s with entries := s.entries.filter (fun e => !e.deleted) }

/-! ## KV snapshot persistence (src/pgraft_kv.c) -/

/-- The byte image written by pgraft_kv_save_to_disk: one fwrite of the
whole pgraft_kv_store_t.  The mutex bytes are also written but are never
consumed by the load path, so they are not represented. -/
structure KVSnapshot where
  entries : List KVEntry
  total_operations : Int
  last_applied_index : Int
  puts : Int
  deletes : Int
  gets : Int
deriving DecidableEq

/-- pgraft_kv_save_to_disk, data content only: serialize the full store
(entries array including tombstones, num_entries, counters). -/
def pgraft_kv_save_to_disk (s : KVStore) : KVSnapshot :=
  { entries := s.entries
    total_operations := s.total_operations
    last_applied_index := s.last_applied_index
    puts := s.puts
    deletes := s.deletes
    gets := s.gets }

/-- pgraft_kv_load_from_disk, data content only: read the file image
into a temporary and copy entries, num_entries, total_operations,
last_applied_index, puts, deletes, gets into the target store, leaving
only the mutex untouched. -/
def pgraft_kv_load_from_disk (snap : KVSnapshot) (s : KVStore) : KVStore :=
  { s with
    entries := snap.entries
    total_operations := snap.total_operations
    last_applied_index := snap.last_applied_index
    puts := snap.puts
    deletes := snap.deletes
    gets := snap.gets }

/-! ## Apply pipeline (src/pgraft_apply.c) -/

/-- Numeric value of the PGRAFT_KV_PUT enumerator. -/
def PGRAFT_KV_PUT : Int := 1

/-- Numeric value of the PGRAFT_KV_DELETE enumerator. -/
def PGRAFT_KV_DELETE : Int := 2

/-- Output of pgraft_json_parse_kv_operation: operation type code and
the optional key and value strings extracted from the JSON payload. -/
structure ParsedKVOp where
  op_type : Int
  key : Option String
  value : Option String
deriving DecidableEq

/-- pgraft_apply_kv_operation.  The JSON payload is represented by the
result of pgraft_json_parse_kv_operation: none for a parse failure,
otherwise the extracted fields.  Dispatches PUT to pgraft_kv_put_local
and DELETE to pgraft_kv_delete_local, rejecting missing parameters and
unknown operation types. -/
def pgraft_apply_kv_operation (parsed : Option ParsedKVOp) (now : Int)
    (s : KVStore) : Int × KVStore :=
  match parsed with
  | none => (-1, s)
  | some op =>
      if op.op_type = PGRAFT_KV_PUT then
        match op.key, op.value with
        | some k, some v => pgraft_kv_put_local k v now s
        | _, _ => (-1, s)
      else if op.op_type = PGRAFT_KV_DELETE then
        match op.key with
        | some k => pgraft_kv_delete_local k now s
        | none => (-1, s)
      else (-1, s)

/-- The state the apply pipeline touches: the KV store plus the
worker_state->last_applied_index slot (uint64) that
pgraft_record_applied_index writes. -/
structure ApplyState where
  kv : KVStore
  worker_last_applied : Nat
deriving DecidableEq

/-- pgraft_record_applied_index: store the index in shared memory. -/
def pgraft_record_applied_index (index : Nat) (st : ApplyState) : ApplyState :=
  { st with worker_last_applied := index }

/-- pgraft_apply_entry_to_postgres, branch taken when the payload's
first byte is a left brace (a KV operation): run
pgraft_apply_kv_operation and, exactly when it returned 0, record the
raft index via pgraft_record_applied_index.  There is no comparison of
raft_index against the recorded last applied index anywhere on this
path. -/
def pgraft_apply_entry_to_postgres_kv (raft_index : Nat)
    (parsed : Option ParsedKVOp) (now : Int) (st : ApplyState) :
    Int × ApplyState :=
  let r := pgraft_apply_kv_operation parsed now st.kv
  let st' : ApplyState := { st with kv := r.2 }
  if r.1 = 0 then (r.1, pgraft_record_applied_index raft_index st')
  else (r.1, st')

/-! ## Log replication tracker (src/pgraft_log.c) -/

/-- pgraft_log_entry_t.  data is a fixed buffer written by a bounded
memcpy of data_size bytes (data_size is checked against 1024 first).
committed and applied are int32 flags holding 0 or 1. -/
structure LogEntry where
  index : Int
  term : Int
  timestamp : Int
  data : String
  data_size : Int
  committed : Bool
  applied : Bool
deriving DecidableEq

/-- pgraft_log_state_t minus the mutex; entries is the populated prefix
of the fixed entries[1000] array (log_size = entries.length). -/
structure LogState where
  entries : List LogEntry
  last_index : Int
  commit_index : Int
  last_applied : Int
  entries_replicated : Int
  entries_committed : Int
  entries_applied : Int
  replication_errors : Int
deriving DecidableEq

/-- The zero-filled tracker created by pgraft_log_init_shared_memory. -/
def logInit : LogState :=
  { entries := []
    last_index := 0
    commit_index := 0
    last_applied := 0
    entries_replicated := 0
    entries_committed := 0
    entries_applied := 0
    replication_errors := 0 }

/-- log_size field of the C struct: number of populated slots. -/
def LogState.log_size (st : LogState) : Nat := st.entries.length

/-- pgraft_log_append_entry.  now stands for GetCurrentTimestamp().
Rejects payloads over 1024 bytes and a full (1000-entry) log; otherwise
writes the next slot with index last_index + 1 and advances
last_index. -/
def pgraft_log_append_entry (term : Int) (data : String) (now : Int)
    (st : LogState) : Int × LogState :=
  if 1024 < (data.length : Int) then (-1, st)
  else if 1000 ≤ st.entries.length then (-1, st)
  else
    (0, { st with
          entries := st.entries ++
            [{ index := st.last_index + 1
               term := term
               timestamp := now
               data := data
               data_size := (data.length : Int)
               committed := false
               applied := false }]
          last_index := st.last_index + 1 })

/-- The linear scan shared by commit, apply and get_entry: first slot
whose index field equals the argument. -/
def logFind (index : Int) : List LogEntry → Option LogEntry
  | [] => none
  | e :: rest => if e.index = index then some e else logFind index rest

/-- Scan half of pgraft_log_commit_entry: set the committed flag of the
first slot carrying the index; none when no slot does. -/
def logCommitScan (index : Int) : List LogEntry → Option (List LogEntry)
  | [] => none
  | e :: rest =>
      if e.index = index then some ({ e with committed := true } :: rest)
      else
        match logCommitScan index rest with
        | some rest' => some (e :: rest')
        | none => none

/-- pgraft_log_commit_entry: mark the entry committed, advance
commit_index to the maximum of itself and the index, count the commit;
-1 leaving the state untouched when the index was never appended. -/
def pgraft_log_commit_entry (index : Int) (st : LogState) : Int × LogState :=
  match logCommitScan index st.entries with
  | none => (-1, st)
  | some entries' =>
      (0, { st with
            entries := entries'
            commit_index :=
              if st.commit_index < index then index else st.commit_index
            entries_committed := st.entries_committed + 1 })

/-- Outcome of the scan loop inside pgraft_log_apply_entry. -/
inductive LogApplyScanResult where
  | notFound
  | notCommitted
  | ok (entries : List LogEntry)
deriving DecidableEq

/-- Scan half of pgraft_log_apply_entry: find the first slot carrying
the index; refuse if its committed flag is clear, otherwise set its
applied flag. -/
def logApplyScan (index : Int) : List LogEntry → LogApplyScanResult
  | [] => .notFound
  | e :: rest =>
      if e.index = index then
        if e.committed then .ok ({ e with applied := true } :: rest)
        else .notCommitted
      else
        match logApplyScan index rest with
        | .ok rest' => .ok (e :: rest')
        | .notCommitted => .notCommitted
        | .notFound => .notFound

/-- pgraft_log_apply_entry: mark a committed entry applied, advance
last_applied to the maximum of itself and the index, count the apply;
-1 leaving the state untouched when the entry is missing or not yet
committed. -/
def pgraft_log_apply_entry (index : Int) (st : LogState) : Int × LogState :=
  match logApplyScan index st.entries with
  | .notFound => (-1, st)
  | .notCommitted => (-1, st)
  | .ok entries' =>
      (0, { st with
            entries := entries'
            last_applied :=
              if st.last_applied < index then index else st.last_applied
            entries_applied := st.entries_applied + 1 })

/-- pgraft_log_cleanup_old_entries: the shift loop removes every slot
whose index is below the threshold, keeping the survivors in order;
last_index, commit_index and last_applied are untouched. -/
def pgraft_log_cleanup_old_entries (before_index : Int) (st : LogState) :
    LogState :=
  { st with entries := st.entries.filter (fun e => before_index ≤ e.index) }

/-- One tracker operation, for stating properties over sequences of
calls. -/
inductive LogOp where
  | append (term : Int) (data : String) (now : Int)
  | cleanup (before_index : Int)

/-- Apply one operation to the tracker (result codes discarded). -/
def logStep (op : LogOp) (st : LogState) : LogState :=
  match op with
  | .append term data now => (pgraft_log_append_entry term data now st).2
  | .cleanup before_index => pgraft_log_cleanup_old_entries before_index st

/-- Run a sequence of tracker operations from a state. -/
def logRun : List LogOp → LogState → LogState
  | [], st => st
  | op :: ops, st => logRun ops (logStep op st)

/-- The indices currently stored in the tracker, in array order. -/
def logIndices (st : LogState) : List Int := st.entries.map (·.index)

/-! ## Command queue and apply queue (src/pgraft_util.c)

The pgraft_command_t layout and the queue capacities MAX_COMMANDS and
MAX_APPLY_ENTRIES live in pgraft_core.h, which is not among the sources;
the functions below therefore take the capacities as parameters, and
every theorem about them holds for all capacity values. -/

/-- Status values of the COMMAND_STATUS enumeration. -/
inductive CommandStatus where
  | pending
  | processing
  | completed
  | failed
deriving DecidableEq

/-- pgraft_command_t: discriminated command record.  The numeric
COMMAND_TYPE discriminant is carried as Int. -/
structure PgCommand where
  type : Int
  node_id : Int
  address : String
  port : Int
  cluster_id : String
  log_data : String
  log_index : Int
  kv_key : String
  kv_value : String
  kv_client_id : String
  status : CommandStatus
  error_message : String
  timestamp : Int
deriving DecidableEq

/-- The command-queue fields of pgraft_worker_state_t: the fixed
commands array (all maxCommands slots, live or not) and the circular
head/tail/count bookkeeping. -/
structure CommandQueue where
  commands : List PgCommand
  command_head : Nat
  command_tail : Nat
  command_count : Nat
deriving DecidableEq

/-- pgraft_queue_command: refuse without touching anything when the
queue already holds maxCommands commands; otherwise overwrite the slot
at the tail with the new command (only the fields the C code assigns:
type, node_id, address, port, cluster_id, status, error_message,
timestamp; the log and kv fields of the slot are left as they were),
advance the tail modulo the capacity and bump the count. -/
def pgraft_queue_command (maxCommands : Nat) (type node_id : Int)
    (address : String) (port : Int) (cluster_id : String) (now : Int)
    (st : CommandQueue) : Bool × CommandQueue :=
  if maxCommands ≤ st.command_count then (false, st)
  else
    (true,
     { st with
       commands :=
         listModify
           (fun old =>
             { old with
               type := type
               node_id := node_id
               address := address
               port := port
               cluster_id := cluster_id
               status := CommandStatus.pending
               error_message := ""
               timestamp := now })
           st.command_tail st.commands
       command_tail := (st.command_tail + 1) % maxCommands
       command_count := st.command_count + 1 })

/-- pgraft_dequeue_command: none when empty; otherwise hand out the slot
at the head and advance the head modulo the capacity. -/
def pgraft_dequeue_command (maxCommands : Nat) (st : CommandQueue) :
    Option PgCommand × CommandQueue :=
  if st.command_count = 0 then (none, st)
  else
    (st.commands.get? st.command_head,
     { st with
       command_head := (st.command_head + 1) % maxCommands
       command_count := st.command_count - 1 })

/-- pgraft_apply_entry_t: one slot of the apply queue.  The fixed data
buffer is carried as the byte list actually stored (the data_len prefix
written by the memcpy); data_len mirrors the C field. -/
structure ApplyQueueEntry where
  raft_index : Nat
  data : List Nat
  data_len : Nat
  applied : Bool
deriving DecidableEq

/-- The apply-queue fields of pgraft_worker_state_t. -/
structure ApplyQueue where
  apply_queue : List ApplyQueueEntry
  apply_head : Nat
  apply_tail : Nat
  apply_count : Nat
deriving DecidableEq

/-- pgraft_enqueue_apply_entry: refuse without touching anything when
the queue holds maxApplyEntries entries, or when the payload is longer
than the dataCap-byte slot buffer; otherwise store raft_index, data_len
and the payload bytes verbatim in the slot at the tail with the applied
flag clear, advance the tail modulo the capacity and bump the count. -/
def pgraft_enqueue_apply_entry (maxApplyEntries dataCap : Nat)
    (raft_index : Nat) (data : List Nat) (st : ApplyQueue) :
    Bool × ApplyQueue :=
  if maxApplyEntries ≤ st.apply_count then (false, st)
  else if dataCap < data.length then (false, st)
  else
    (true,
     { st with
       apply_queue :=
         listModify
           (fun _ =>
             { raft_index := raft_index
               data := data
               data_len := data.length
               applied := false })
           st.apply_tail st.apply_queue
       apply_tail := (st.apply_tail + 1) % maxApplyEntries
       apply_count := st.apply_count + 1 })

/-! ## Cluster core (src/pgraft_core.c) -/

/-- pgraft_node_t. -/
structure PgNode where
  id : Int
  address : String
  port : Int
  is_leader : Bool
deriving DecidableEq

/-- pgraft_cluster_t minus the mutex; nodes is the populated prefix of
the fixed nodes[16] array (num_nodes = nodes.length). -/
structure PgCluster where
  node_id : Int
  current_term : Int
  leader_id : Int
  state : String
  nodes : List PgNode
  messages_processed : Int
  heartbeats_sent : Int
  elections_triggered : Int
  initialized : Bool
deriving DecidableEq

/-- num_nodes field of the C struct. -/
def PgCluster.num_nodes (c : PgCluster) : Nat := c.nodes.length

/-- pgraft_core_init: when the descriptor is already initialized,
release the lock and return 0 leaving every field as it was; otherwise
fill in the identity fields, the follower state label, the single-node
node list and the zeroed counters, and set the initialized flag. -/
def pgraft_core_init (node_id : Int) (address : String) (port : Int)
    (c : PgCluster) : Int × PgCluster :=
  if c.initialized then (0, c)
  else
    (0,
     { node_id := node_id
       current_term := 0
       leader_id := -1
       state := "follower"
       nodes := [{ id := node_id, address := address, port := port,
                   is_leader := false }]
       messages_processed := 0
       heartbeats_sent := 0
       elections_triggered := 0
       initialized := true })

/-! ## Durable write paths (src/pgraft.c, src/pgraft_kv.c)

The two persistence routines are modelled by the sequence of
file-system calls they issue, which is what the atomicity property is
about. -/

/-- One file-system call relevant to crash atomicity: creating or
truncating a file at a path and writing it out, or renaming a path over
another. -/
inductive FsAction where
  | writeFile (path : String)
  | renamePath (src dst : String)
deriving DecidableEq, BEq

/-- Path constant PGRAFT_KV_PERSIST_FILE. -/
def PGRAFT_KV_PERSIST_FILE : String := "/tmp/pgraft_kv_store.dat"

/-- File-system calls of pgraft_kv_save_to_disk: a single
fopen(path, "wb") / fwrite / fclose at the final path.  No temporary
file and no rename. -/
def pgraft_kv_save_to_disk_trace (path : String) : List FsAction :=
  [FsAction.writeFile path]

/-- Final path of the cluster state file for a data directory. -/
def clusterStatePath (data_dir : String) : String :=
  data_dir ++ "/cluster_state.json"

/-- Temporary path used by pgraft_write_state_to_file. -/
def clusterStateTmpPath (data_dir : String) : String :=
  data_dir ++ "/cluster_state.json.tmp"

/-- File-system calls of pgraft_write_state_to_file: write the
temporary file, then rename it over the final path. -/
def pgraft_write_state_to_file_trace (data_dir : String) : List FsAction :=
  [FsAction.writeFile (clusterStateTmpPath data_dir),
   FsAction.renamePath (clusterStateTmpPath data_dir)
     (clusterStatePath data_dir)]

/-- Does this action rename some path that the trace wrote onto the
final path? -/
def renamesWrittenTmpOnto (trace : List FsAction) (final : String) :
    FsAction → Bool
  | FsAction.renamePath src dst =>
      dst == final && trace.contains (FsAction.writeFile src)
  | FsAction.writeFile _ => false

/-- Write-then-rename atomicity of a trace with respect to a final
path: the trace never opens the final path for writing directly, and
the content arrives by renaming a temporary file the trace wrote. -/
def atomicReplace (trace : List FsAction) (final : String) : Bool :=
  !(trace.contains (FsAction.writeFile final)) &&
  trace.any (renamesWrittenTmpOnto trace final)

/-! ## Concrete states and payloads used by the closed theorems below -/

/-- Parsed KV PUT payload for key k, value v (the claim scenarios). -/
def kPutOp : ParsedKVOp :=
  { op_type := PGRAFT_KV_PUT, key := some "k", value := some "v" }

/-- Parsed KV PUT payload for key alpha, value 1 (the spec scenario). -/
def alphaPutOp : ParsedKVOp :=
  { op_type := PGRAFT_KV_PUT, key := some "alpha", value := some "1" }

/-- A store holding one live entry for key k at version 1. -/
def kvOneKeyStore : KVStore :=
  { entries := [{ key := "k", value := "a", version := 1, created_at := 10,
                  updated_at := 10, log_index := 1, deleted := false }]
    total_operations := 1
    last_applied_index := 1
    puts := 1
    deletes := 0
    gets := 0 }

/-- A tracker holding one appended, not yet committed entry at index 1. -/
def logOneUncommitted : LogState :=
  { logInit with
    entries := [{ index := 1, term := 1, timestamp := 0, data := "x",
                  data_size := 1, committed := false, applied := false }]
    last_index := 1 }

/-- An arbitrary fully populated command slot. -/
def cmdSlot : PgCommand :=
  { type := 0, node_id := 0, address := "", port := 0, cluster_id := ""
    log_data := "", log_index := 0, kv_key := "", kv_value := ""
    kv_client_id := "", status := CommandStatus.pending
    error_message := "", timestamp := 0 }

/-- A command queue of capacity 3 that is full. -/
def fullCommandQueue : CommandQueue :=
  { commands := List.replicate 3 cmdSlot
    command_head := 0
    command_tail := 0
    command_count := 3 }

/-- An arbitrary populated apply-queue slot. -/
def applySlot : ApplyQueueEntry :=
  { raft_index := 3, data := [1], data_len := 1, applied := true }

/-- An apply queue whose count claims it is at a capacity of 5. -/
def fullApplyQueue : ApplyQueue :=
  { apply_queue := [], apply_head := 0, apply_tail := 0, apply_count := 5 }

/-- A small apply queue with two slots, one occupied, tail at slot 1. -/
def twoSlotApplyQueue : ApplyQueue :=
  { apply_queue := [applySlot, applySlot]
    apply_head := 0
    apply_tail := 1
    apply_count := 1 }

/-- An already-initialized cluster descriptor with distinctive values. -/
def liveCluster : PgCluster :=
  { node_id := 1
    current_term := 4
    leader_id := 2
    state := "leader"
    nodes := [{ id := 1, address := "10.0.0.1", port := 7000,
                is_leader := false },
              { id := 2, address := "10.0.0.2", port := 7000,
                is_leader := true }]
    messages_processed := 5
    heartbeats_sent := 6
    elections_triggered := 7
    initialized := true }

/-! ## Helper lemmas: KV scan functions -/

theorem kvMatches_putUpdate (key value : String) (li now : Int) (e : KVEntry)
    (h : kvMatches key e = true) :
    kvMatches key (kvPutUpdate value li now e) = true := by
  simp [kvMatches, kvPutUpdate] at h ⊢
  exact h.2

theorem find_none_putScan (key value : String) (li now : Int) :
    ∀ l : List KVEntry, pgraft_kv_find_entry key l = none →
      kvPutScan key value li now l = none := by
  intro l
  induction l with
  | nil => intro _; rfl
  | cons e rest ih =>
      intro h
      by_cases hm : kvMatches key e = true
      · simp [pgraft_kv_find_entry, hm] at h
      · simp [pgraft_kv_find_entry, hm] at h
        simp [kvPutScan, hm, ih h]

theorem find_some_putScan (key value : String) (li now : Int) :
    ∀ l : List KVEntry, ∀ e : KVEntry,
      pgraft_kv_find_entry key l = some e →
      ∃ l', kvPutScan key value li now l = some l' ∧
        pgraft_kv_find_entry key l' = some (kvPutUpdate value li now e) := by
  intro l
  induction l with
  | nil => intro e h; simp [pgraft_kv_find_entry] at h
  | cons a rest ih =>
      intro e h
      by_cases hm : kvMatches key a = true
      · simp [pgraft_kv_find_entry, hm] at h
        subst h
        refine ⟨kvPutUpdate value li now a :: rest, ?_, ?_⟩
        · simp [kvPutScan, hm]
        · simp [pgraft_kv_find_entry, kvMatches_putUpdate key value li now a hm]
      · simp [pgraft_kv_find_entry, hm] at h
        obtain ⟨l'', hscan, hfind⟩ := ih e h
        refine ⟨a :: l'', ?_, ?_⟩
        · simp [kvPutScan, hm, hscan]
        · simp [pgraft_kv_find_entry, hm, hfind]

theorem find_some_deleteScan (key : String) (li now : Int) :
    ∀ l : List KVEntry, ∀ e : KVEntry,
      pgraft_kv_find_entry key l = some e →
      ∃ l', kvDeleteScan key li now l = some l' ∧
        kvDeleteUpdate li now e ∈ l' := by
  intro l
  induction l with
  | nil => intro e h; simp [pgraft_kv_find_entry] at h
  | cons a rest ih =>
      intro e h
      by_cases hm : kvMatches key a = true
      · simp [pgraft_kv_find_entry, hm] at h
        subst h
        exact ⟨kvDeleteUpdate li now a :: rest, by simp [kvDeleteScan, hm],
               List.mem_cons_self _ _⟩
      · simp [pgraft_kv_find_entry, hm] at h
        obtain ⟨l'', hscan, hmem⟩ := ih e h
        exact ⟨a :: l'', by simp [kvDeleteScan, hm, hscan],
               List.mem_cons_of_mem a hmem⟩

theorem find_append_none (key : String) :
    ∀ l l₂ : List KVEntry, pgraft_kv_find_entry key l = none →
      pgraft_kv_find_entry key (l ++ l₂) = pgraft_kv_find_entry key l₂ := by
  intro l l₂
  induction l with
  | nil => intro _; rfl
  | cons a rest ih =>
      intro h
      by_cases hm : kvMatches key a = true
      · simp [pgraft_kv_find_entry, hm] at h
      · simp [pgraft_kv_find_entry, hm] at h ⊢
        exact ih h

theorem kvMatches_newEntry (key value : String) (li now : Int) :
    kvMatches key (kvNewEntry key value li now) = true := by
  simp [kvMatches, kvNewEntry]

/-! ## Helper lemmas: log tracker -/

/-- Tracker invariant: stored indices strictly increase along the array
and are all bounded by last_index. -/
def logInv (st : LogState) : Prop :=
  (logIndices st).Pairwise (· < ·) ∧ ∀ e ∈ st.entries, e.index ≤ st.last_index

theorem logInv_init : logInv logInit := by
  constructor
  · simp [logIndices, logInit]
  · simp [logInit]

theorem logInv_append (term : Int) (data : String) (now : Int)
    (st : LogState) (h : logInv st) :
    logInv (pgraft_log_append_entry term data now st).2 := by
  obtain ⟨hpw, hbd⟩ := h
  unfold pgraft_log_append_entry
  by_cases h1 : 1024 < (data.length : Int)
  · simp [h1]; exact ⟨hpw, hbd⟩
  · by_cases h2 : 1000 ≤ st.entries.length
    · simp [h1, h2]; exact ⟨hpw, hbd⟩
    · simp only [h1, h2, if_false, if_true, ite_false, ite_true]
      constructor
      · simp only [logIndices, List.map_append]
        rw [List.pairwise_append]
        refine ⟨hpw, by simp, ?_⟩
        intro a ha b hb
        simp at hb
        subst hb
        simp [logIndices] at ha
        obtain ⟨e, he, hidx⟩ := ha
        have := hbd e he
        omega
      · intro e he
        simp at he
        rcases he with he | he
        · have := hbd e he
          simp
          omega
        · simp [he]

theorem logInv_cleanup (before_index : Int) (st : LogState) (h : logInv st) :
    logInv (pgraft_log_cleanup_old_entries before_index st) := by
  obtain ⟨hpw, hbd⟩ := h
  constructor
  · have hsub : List.Sublist
        ((st.entries.filter (fun e => before_index ≤ e.index)).map (·.index))
        (st.entries.map (·.index)) :=
      List.Sublist.map _ (List.filter_sublist _)
    exact List.Pairwise.sublist hsub hpw
  · intro e he
    have hmem : e ∈ st.entries := by
      have := he
      simp only [pgraft_log_cleanup_old_entries] at this
      exact List.mem_of_mem_filter this
    exact hbd e hmem

theorem logInv_run : ∀ (ops : List LogOp) (st : LogState), logInv st →
    logInv (logRun ops st) := by
  intro ops
  induction ops with
  | nil => intro st h; exact h
  | cons op rest ih =>
      intro st h
      apply ih
      cases op with
      | append t d n => exact logInv_append t d n st h
      | cleanup b => exact logInv_cleanup b st h

theorem append_success (term : Int) (data : String) (now : Int) (st : LogState)
    (hd : data.length ≤ 1024) (hcap : st.entries.length < 1000) :
    pgraft_log_append_entry term data now st =
      (0, { st with
            entries := st.entries ++
              [{ index := st.last_index + 1
                 term := term
                 timestamp := now
                 data := data
                 data_size := (data.length : Int)
                 committed := false
                 applied := false }]
            last_index := st.last_index + 1 }) := by
  have h1 : ¬ 1024 < (data.length : Int) := by exact_mod_cast Nat.not_lt.mpr hd
  have h2 : ¬ 1000 ≤ st.entries.length := Nat.not_le.mpr hcap
  simp [pgraft_log_append_entry, h1, h2]

/-- A sequence member is a size-checked append. -/
def opIsSmallAppend : LogOp → Prop
  | .append _ data _ => data.length ≤ 1024
  | .cleanup _ => False

theorem gapless_aux :
    ∀ (ops : List LogOp) (st : LogState),
      (∀ op ∈ ops, opIsSmallAppend op) →
      st.entries.length + ops.length ≤ 1000 →
      st.last_index = (st.entries.length : Int) →
      logIndices (logRun ops st) =
        logIndices st ++
          (List.range' (st.entries.length + 1) ops.length).map Int.ofNat := by
  intro ops
  induction ops with
  | nil => intro st _ _ _; simp [logRun]
  | cons op rest ih =>
      intro st hok hcap hlast
      cases op with
      | cleanup b => exact absurd (hok _ (List.mem_cons_self _ _)) id
      | append t d n =>
          have hd : d.length ≤ 1024 := hok _ (List.mem_cons_self _ _)
          have hc : st.entries.length < 1000 := by
            simp at hcap
            omega
          simp only [List.length_cons, List.range'_succ]
          simp only [logRun, logStep, append_success t d n st hd hc]
          have hrest := ih
            { st with
              entries := st.entries ++
                [{ index := st.last_index + 1
                   term := t
                   timestamp := n
                   data := d
                   data_size := (d.length : Int)
                   committed := false
                   applied := false }]
              last_index := st.last_index + 1 }
            (fun op hm => hok op (List.mem_cons_of_mem _ hm))
            (by simp; simp at hcap; omega)
            (by simp [hlast])
          simp only [List.length_append, List.length_cons, List.length_nil] at hrest
          rw [hrest]
          simp [logIndices, hlast]

theorem find_none_commitScan (i : Int) :
    ∀ l : List LogEntry, logFind i l = none → logCommitScan i l = none := by
  intro l
  induction l with
  | nil => intro _; rfl
  | cons e rest ih =>
      intro h
      by_cases he : e.index = i
      · simp [logFind, he] at h
      · simp [logFind, he] at h
        simp [logCommitScan, he, ih h]

theorem find_none_applyScan (i : Int) :
    ∀ l : List LogEntry, logFind i l = none →
      logApplyScan i l = LogApplyScanResult.notFound := by
  intro l
  induction l with
  | nil => intro _; rfl
  | cons e rest ih =>
      intro h
      by_cases he : e.index = i
      · simp [logFind, he] at h
      · simp [logFind, he] at h
        simp [logApplyScan, he, ih h]

theorem find_uncommitted_applyScan (i : Int) :
    ∀ (l : List LogEntry) (e : LogEntry), logFind i l = some e →
      e.committed = false →
      logApplyScan i l = LogApplyScanResult.notCommitted := by
  intro l
  induction l with
  | nil => intro e h; simp [logFind] at h
  | cons a rest ih =>
      intro e h hc
      by_cases ha : a.index = i
      · simp [logFind, ha] at h
        subst h
        simp [logApplyScan, ha, hc]
      · simp [logFind, ha] at h
        simp [logApplyScan, ha, ih e h hc]

/-! ## Helper lemmas: slot updates -/

theorem listModify_get_ne {α : Type} (f : α → α) :
    ∀ (i j : Nat) (l : List α), j ≠ i →
      (listModify f i l)[j]? = l[j]? := by
  intro i j l
  induction l generalizing i j with
  | nil => intro _; simp [listModify]
  | cons a rest ih =>
      intro hne
      cases i with
      | zero =>
          cases j with
          | zero => exact absurd rfl hne
          | succ m => simp [listModify]
      | succ n =>
          cases j with
          | zero => simp [listModify]
          | succ m =>
              simp [listModify]
              exact ih n m (fun h => hne (by rw [h]))

theorem listModify_get_eq {α : Type} (f : α → α) :
    ∀ (i : Nat) (l : List α),
      (listModify f i l)[i]? = (l[i]?).map f := by
  intro i l
  induction l generalizing i with
  | nil => simp [listModify]
  | cons a rest ih =>
      cases i with
      | zero => simp [listModify]
      | succ n => simp [listModify, ih n]

/-! ## Claim theorems -/

/-- C1: the claim says a duplicate delivery of an already-applied index N
(N at most the recorded last-applied index) is a no-op success with no
second mutation.  Evaluating the embedded apply pipeline at the failing
input refutes this for the code: after the PUT for raft index 1 is
applied (worker last-applied becomes 1, so 1 is at most it), delivering
the same entry again returns success 0, re-executes the put, drives key
k to version 2 and the puts counter to 2 — the pipeline has no check of
raft_index against the recorded last-applied index. -/
theorem c1_duplicate_delivery_reapplies :
    1 ≤ (pgraft_apply_entry_to_postgres_kv 1 (some kPutOp) 10
      ⟨kvInit, 0⟩).2.worker_last_applied ∧
    (pgraft_apply_entry_to_postgres_kv 1 (some kPutOp) 20
       (pgraft_apply_entry_to_postgres_kv 1 (some kPutOp) 10
          ⟨kvInit, 0⟩).2).1 = 0 ∧
    (pgraft_kv_get "k"
       (pgraft_apply_entry_to_postgres_kv 1 (some kPutOp) 20
          (pgraft_apply_entry_to_postgres_kv 1 (some kPutOp) 10
             ⟨kvInit, 0⟩).2).2.kv).1 = some ("v", 2) ∧
    (pgraft_apply_entry_to_postgres_kv 1 (some kPutOp) 20
       (pgraft_apply_entry_to_postgres_kv 1 (some kPutOp) 10
          ⟨kvInit, 0⟩).2).2.kv.puts = 2 := by
  decide

/-- C2: the claim says that applying a committed KV PUT at consensus
index N to a fresh key makes the subsequent get return the value with
version 1 and makes the KV store's last_applied_index equal N.
Evaluating the embedded code at N = 5: the get part holds, but the KV
store's last_applied_index is 0, not 5, because pgraft_kv_put_local
passes log_index 0 into pgraft_kv_put; only the separate worker-state
applied index receives 5. -/
theorem c2_apply_put_kv_last_applied_zero :
    (pgraft_apply_entry_to_postgres_kv 5 (some alphaPutOp) 100
       ⟨kvInit, 0⟩).1 = 0 ∧
    (pgraft_apply_entry_to_postgres_kv 5 (some alphaPutOp) 100
       ⟨kvInit, 0⟩).2.worker_last_applied = 5 ∧
    (pgraft_kv_get "alpha"
       (pgraft_apply_entry_to_postgres_kv 5 (some alphaPutOp) 100
          ⟨kvInit, 0⟩).2.kv).1 = some ("1", 1) ∧
    (pgraft_apply_entry_to_postgres_kv 5 (some alphaPutOp) 100
       ⟨kvInit, 0⟩).2.kv.last_applied_index = 0 := by
  decide

/-- C3 counterexample: the claim says every successful put or delete of
a key strictly increases that key's version, in particular across a
delete followed by a put of the same key.  Concretely: put k a (version
1), delete k (tombstone at version 2), then put k b succeeds but
creates a fresh live entry at version 1 — the tombstone is skipped by
the live-entry scan — so the version did not strictly increase. -/
theorem c3_put_after_delete_version_resets :
    (pgraft_kv_delete "k" 2 20 (pgraft_kv_put "k" "a" 1 10 kvInit).2).2.entries
      = [{ key := "k", value := "a", version := 2, created_at := 10,
           updated_at := 20, log_index := 2, deleted := true }] ∧
    (pgraft_kv_put "k" "b" 3 30
       (pgraft_kv_delete "k" 2 20
          (pgraft_kv_put "k" "a" 1 10 kvInit).2).2).1 = 0 ∧
    pgraft_kv_find_entry "k"
      (pgraft_kv_put "k" "b" 3 30
         (pgraft_kv_delete "k" 2 20
            (pgraft_kv_put "k" "a" 1 10 kvInit).2).2).2.entries
      = some { key := "k", value := "b", version := 1, created_at := 30,
               updated_at := 30, log_index := 3, deleted := false } := by
  decide

/-- C3 (amended): a put of a key with a live entry and a delete of a
live key each increment that entry's version by exactly one (the delete
leaves the incremented version on the tombstone); a put of a key with
no live entry — in particular a put following a delete of that key —
creates a fresh entry at version 1, so the version does not strictly
increase across delete-then-put. -/
theorem c3_version_increase_amended :
    (∀ (s : KVStore) (key value : String) (li now : Int) (e : KVEntry),
       pgraft_kv_find_entry key s.entries = some e →
       key.length < 256 → value.length < 1024 →
       ((pgraft_kv_put key value li now s).1 = 0 ∧
        pgraft_kv_find_entry key (pgraft_kv_put key value li now s).2.entries
          = some (kvPutUpdate value li now e)) ∧
       ((pgraft_kv_delete key li now s).1 = 0 ∧
        kvDeleteUpdate li now e ∈ (pgraft_kv_delete key li now s).2.entries)) ∧
    (∀ (s : KVStore) (key value : String) (li now : Int),
       pgraft_kv_find_entry key s.entries = none →
       key.length < 256 → value.length < 1024 → s.entries.length < 1000 →
       (pgraft_kv_put key value li now s).1 = 0 ∧
       pgraft_kv_find_entry key (pgraft_kv_put key value li now s).2.entries
         = some (kvNewEntry key value li now)) := by
  constructor
  · intro s key value li now e hfind hk hv
    obtain ⟨l', hscan, hfind'⟩ :=
      find_some_putScan key value li now s.entries e hfind
    obtain ⟨ld, hdscan, hdmem⟩ :=
      find_some_deleteScan key li now s.entries e hfind
    constructor
    · constructor
      · simp [pgraft_kv_put, Nat.not_le.mpr hk, Nat.not_le.mpr hv, hscan]
      · simp [pgraft_kv_put, Nat.not_le.mpr hk, Nat.not_le.mpr hv, hscan,
              hfind']
    · constructor
      · simp [pgraft_kv_delete, hdscan]
      · simp [pgraft_kv_delete, hdscan, hdmem]
  · intro s key value li now hfind hk hv hcap
    have hscan := find_none_putScan key value li now s.entries hfind
    constructor
    · simp [pgraft_kv_put, Nat.not_le.mpr hk, Nat.not_le.mpr hv, hscan,
            Nat.not_le.mpr hcap]
    · simp [pgraft_kv_put, Nat.not_le.mpr hk, Nat.not_le.mpr hv, hscan,
            Nat.not_le.mpr hcap, find_append_none key s.entries _ hfind,
            pgraft_kv_find_entry, kvMatches_newEntry]

/-- C3 witness: the amended theorem applied to a store holding key k at
version 1 (update and delete each reach version 2) and to the empty
store (fresh key x starts at version 1). -/
theorem c3_version_increase_amended_witness :
    (((pgraft_kv_put "k" "b" 7 40 kvOneKeyStore).1 = 0 ∧
      pgraft_kv_find_entry "k"
        (pgraft_kv_put "k" "b" 7 40 kvOneKeyStore).2.entries
        = some (kvPutUpdate "b" 7 40
            { key := "k", value := "a", version := 1, created_at := 10,
              updated_at := 10, log_index := 1, deleted := false })) ∧
     ((pgraft_kv_delete "k" 7 40 kvOneKeyStore).1 = 0 ∧
      kvDeleteUpdate 7 40
          { key := "k", value := "a", version := 1, created_at := 10,
            updated_at := 10, log_index := 1, deleted := false }
        ∈ (pgraft_kv_delete "k" 7 40 kvOneKeyStore).2.entries)) ∧
    ((pgraft_kv_put "x" "y" 9 50 kvInit).1 = 0 ∧
     pgraft_kv_find_entry "x"
       (pgraft_kv_put "x" "y" 9 50 kvInit).2.entries
       = some (kvNewEntry "x" "y" 9 50)) :=
  ⟨c3_version_increase_amended.1 kvOneKeyStore "k" "b" 7 40
      { key := "k", value := "a", version := 1, created_at := 10,
        updated_at := 10, log_index := 1, deleted := false }
      (by decide) (by decide) (by decide),
   c3_version_increase_amended.2 kvInit "x" "y" 9 50
      (by decide) (by decide) (by decide) (by decide)⟩

/-- C4 counterexample: the claim says both durable artifacts are written
via a temporary file atomically renamed over the final path.  The KV
snapshot writer is a single fopen of the final path itself: its
file-system trace writes the final path directly and contains no
rename, so it is not write-then-rename atomic. -/
theorem c4_kv_snapshot_not_atomic :
    atomicReplace (pgraft_kv_save_to_disk_trace PGRAFT_KV_PERSIST_FILE)
      PGRAFT_KV_PERSIST_FILE = false := by
  decide

/-- C4 (amended): the cluster state file is persisted by writing a
temporary file and atomically renaming it over the final path, but the
KV store snapshot is written directly at its final path with no
temporary file and no rename, so a crash during a KV snapshot write can
leave a partially written snapshot at the final path. -/
theorem c4_persistence_atomicity_amended :
    atomicReplace (pgraft_write_state_to_file_trace "pgraft-data")
      (clusterStatePath "pgraft-data") = true ∧
    atomicReplace (pgraft_kv_save_to_disk_trace PGRAFT_KV_PERSIST_FILE)
      PGRAFT_KV_PERSIST_FILE = false := by
  decide

/-- C5: starting from a fresh tracker, successful appends assign the
gapless indices 1, 2, 3, ...: every successful append stores index
last_index + 1 and advances last_index to it; stored indices stay
strictly increasing across any interleaving of appends and
cleanup_before calls; and a pure sequence of size-checked appends
within capacity yields exactly the indices 1 .. n. -/
theorem c5_log_indices_gapless_monotonic :
    (∀ ops : List LogOp,
       (logIndices (logRun ops logInit)).Pairwise (· < ·)) ∧
    (∀ (st : LogState) (term : Int) (data : String) (now : Int),
       data.length ≤ 1024 → st.entries.length < 1000 →
       (pgraft_log_append_entry term data now st).1 = 0 ∧
       (pgraft_log_append_entry term data now st).2.last_index
         = st.last_index + 1 ∧
       logIndices (pgraft_log_append_entry term data now st).2
         = logIndices st ++ [st.last_index + 1]) ∧
    (∀ ops : List LogOp, (∀ op ∈ ops, opIsSmallAppend op) →
       ops.length ≤ 1000 →
       logIndices (logRun ops logInit)
         = (List.range' 1 ops.length).map Int.ofNat) := by
  refine ⟨?_, ?_, ?_⟩
  · intro ops
    exact (logInv_run ops logInit logInv_init).1
  · intro st term data now hd hcap
    rw [append_success term data now st hd hcap]
    simp [logIndices]
  · intro ops hok hlen
    have h := gapless_aux ops logInit hok (by simp [logInit]; exact hlen)
      (by simp [logInit])
    simp [logInit, logIndices] at h
    simpa [logIndices] using h

/-- C5 witness: the theorem applied to an append-then-cleanup sequence,
to a concrete successful append on the fresh tracker, and to two
appends yielding indices 1, 2. -/
theorem c5_log_indices_witness :
    (logIndices (logRun [LogOp.append 1 "a" 0, LogOp.cleanup 1]
       logInit)).Pairwise (· < ·) ∧
    ((pgraft_log_append_entry 3 "b" 0 logInit).1 = 0 ∧
     (pgraft_log_append_entry 3 "b" 0 logInit).2.last_index
       = logInit.last_index + 1 ∧
     logIndices (pgraft_log_append_entry 3 "b" 0 logInit).2
       = logIndices logInit ++ [logInit.last_index + 1]) ∧
    logIndices (logRun [LogOp.append 1 "a" 0, LogOp.append 1 "b" 0] logInit)
      = (List.range' 1 2).map Int.ofNat :=
  ⟨c5_log_indices_gapless_monotonic.1 [LogOp.append 1 "a" 0, LogOp.cleanup 1],
   c5_log_indices_gapless_monotonic.2.1 logInit 3 "b" 0 (by decide)
     (by decide),
   c5_log_indices_gapless_monotonic.2.2
     [LogOp.append 1 "a" 0, LogOp.append 1 "b" 0]
     (by
       intro op hm
       simp at hm
       rcases hm with h | h
       · subst h
         show "a".length ≤ 1024
         decide
       · subst h
         show "b".length ≤ 1024
         decide)
     (by decide)⟩

/-- C6: committing an index that was never appended returns -1, and
applying an index that was never appended, or whose entry is not yet
committed, returns -1; in every such failure the tracker state,
commit_index and last_applied included, is left exactly as it was. -/
theorem c6_commit_apply_failure_frame :
    (∀ (st : LogState) (i : Int), logFind i st.entries = none →
       pgraft_log_commit_entry i st = (-1, st) ∧
       pgraft_log_apply_entry i st = (-1, st)) ∧
    (∀ (st : LogState) (i : Int) (e : LogEntry),
       logFind i st.entries = some e → e.committed = false →
       pgraft_log_apply_entry i st = (-1, st)) := by
  constructor
  · intro st i h
    constructor
    · simp [pgraft_log_commit_entry, find_none_commitScan i st.entries h]
    · simp [pgraft_log_apply_entry, find_none_applyScan i st.entries h]
  · intro st i e h hc
    simp [pgraft_log_apply_entry,
          find_uncommitted_applyScan i st.entries e h hc]

/-- C6 witness: the theorem applied to the empty tracker at index 5 and
to a tracker holding one uncommitted entry at index 1. -/
theorem c6_commit_apply_failure_witness :
    (pgraft_log_commit_entry 5 logInit = (-1, logInit) ∧
     pgraft_log_apply_entry 5 logInit = (-1, logInit)) ∧
    pgraft_log_apply_entry 1 logOneUncommitted = (-1, logOneUncommitted) :=
  ⟨c6_commit_apply_failure_frame.1 logInit 5 (by decide),
   c6_commit_apply_failure_frame.2 logOneUncommitted 1
     { index := 1, term := 1, timestamp := 0, data := "x",
       data_size := 1, committed := false, applied := false }
     (by decide) (by decide)⟩

/-- C7: submitting a command when the queue already holds maxCommands
commands returns false and leaves the queue state completely unchanged:
count, head, tail and the slot array all keep their prior values, so
the FIFO order of the queued commands is preserved. -/
theorem c7_queue_full_reject_frame (maxCommands : Nat) (type node_id : Int)
    (address : String) (port : Int) (cluster_id : String) (now : Int)
    (st : CommandQueue) (h : st.command_count = maxCommands) :
    pgraft_queue_command maxCommands type node_id address port cluster_id now
      st = (false, st) ∧
    (pgraft_queue_command maxCommands type node_id address port cluster_id now
       st).2.command_count = st.command_count ∧
    (pgraft_queue_command maxCommands type node_id address port cluster_id now
       st).2.command_head = st.command_head ∧
    (pgraft_queue_command maxCommands type node_id address port cluster_id now
       st).2.command_tail = st.command_tail ∧
    (pgraft_queue_command maxCommands type node_id address port cluster_id now
       st).2.commands = st.commands := by
  have hfull : maxCommands ≤ st.command_count := Nat.le_of_eq h.symm
  refine ⟨?_, ?_, ?_, ?_, ?_⟩ <;> simp [pgraft_queue_command, hfull]

/-- C7 witness: the theorem applied to a full capacity-3 queue. -/
theorem c7_queue_full_reject_witness :
    pgraft_queue_command 3 1 2 "10.0.0.3" 7000 "cid" 9 fullCommandQueue
      = (false, fullCommandQueue) ∧
    (pgraft_queue_command 3 1 2 "10.0.0.3" 7000 "cid" 9
       fullCommandQueue).2.command_count = fullCommandQueue.command_count ∧
    (pgraft_queue_command 3 1 2 "10.0.0.3" 7000 "cid" 9
       fullCommandQueue).2.command_head = fullCommandQueue.command_head ∧
    (pgraft_queue_command 3 1 2 "10.0.0.3" 7000 "cid" 9
       fullCommandQueue).2.command_tail = fullCommandQueue.command_tail ∧
    (pgraft_queue_command 3 1 2 "10.0.0.3" 7000 "cid" 9
       fullCommandQueue).2.commands = fullCommandQueue.commands :=
  c7_queue_full_reject_frame 3 1 2 "10.0.0.3" 7000 "cid" 9 fullCommandQueue
    rfl

/-- C8: saving the KV store to a snapshot and loading that snapshot into
any store (a freshly initialized one included) reproduces the original
exactly: the entry array with its tombstones, num_entries,
last_applied_index and the puts, deletes, gets and total_operations
counters. -/
theorem c8_snapshot_round_trip (s fresh : KVStore) :
    pgraft_kv_load_from_disk (pgraft_kv_save_to_disk s) fresh = s ∧
    (pgraft_kv_load_from_disk (pgraft_kv_save_to_disk s) fresh).entries
      = s.entries ∧
    (pgraft_kv_load_from_disk (pgraft_kv_save_to_disk s) fresh).num_entries
      = s.num_entries ∧
    (pgraft_kv_load_from_disk (pgraft_kv_save_to_disk s)
       fresh).last_applied_index = s.last_applied_index ∧
    (pgraft_kv_load_from_disk (pgraft_kv_save_to_disk s) fresh).puts
      = s.puts ∧
    (pgraft_kv_load_from_disk (pgraft_kv_save_to_disk s) fresh).deletes
      = s.deletes ∧
    (pgraft_kv_load_from_disk (pgraft_kv_save_to_disk s) fresh).gets
      = s.gets ∧
    (pgraft_kv_load_from_disk (pgraft_kv_save_to_disk s)
       fresh).total_operations = s.total_operations :=
  ⟨rfl, rfl, rfl, rfl, rfl, rfl, rfl, rfl⟩

/-- C9: calling pgraft_core_init on an already-initialized cluster
descriptor returns 0 and leaves every field unchanged: node_id, term,
leader_id, state label, node list and all three counters. -/
theorem c9_core_init_idempotent (c : PgCluster) (node_id : Int)
    (address : String) (port : Int) (h : c.initialized = true) :
    pgraft_core_init node_id address port c = (0, c) ∧
    (pgraft_core_init node_id address port c).2.node_id = c.node_id ∧
    (pgraft_core_init node_id address port c).2.current_term
      = c.current_term ∧
    (pgraft_core_init node_id address port c).2.leader_id = c.leader_id ∧
    (pgraft_core_init node_id address port c).2.state = c.state ∧
    (pgraft_core_init node_id address port c).2.nodes = c.nodes ∧
    (pgraft_core_init node_id address port c).2.messages_processed
      = c.messages_processed ∧
    (pgraft_core_init node_id address port c).2.heartbeats_sent
      = c.heartbeats_sent ∧
    (pgraft_core_init node_id address port c).2.elections_triggered
      = c.elections_triggered := by
  refine ⟨?_, ?_, ?_, ?_, ?_, ?_, ?_, ?_, ?_⟩ <;> simp [pgraft_core_init, h]

/-- C9 witness: the theorem applied to an initialized two-node cluster
descriptor with distinctive field values. -/
theorem c9_core_init_idempotent_witness :
    pgraft_core_init 9 "10.9.9.9" 1234 liveCluster = (0, liveCluster) ∧
    (pgraft_core_init 9 "10.9.9.9" 1234 liveCluster).2.node_id
      = liveCluster.node_id ∧
    (pgraft_core_init 9 "10.9.9.9" 1234 liveCluster).2.current_term
      = liveCluster.current_term ∧
    (pgraft_core_init 9 "10.9.9.9" 1234 liveCluster).2.leader_id
      = liveCluster.leader_id ∧
    (pgraft_core_init 9 "10.9.9.9" 1234 liveCluster).2.state
      = liveCluster.state ∧
    (pgraft_core_init 9 "10.9.9.9" 1234 liveCluster).2.nodes
      = liveCluster.nodes ∧
    (pgraft_core_init 9 "10.9.9.9" 1234 liveCluster).2.messages_processed
      = liveCluster.messages_processed ∧
    (pgraft_core_init 9 "10.9.9.9" 1234 liveCluster).2.heartbeats_sent
      = liveCluster.heartbeats_sent ∧
    (pgraft_core_init 9 "10.9.9.9" 1234 liveCluster).2.elections_triggered
      = liveCluster.elections_triggered :=
  c9_core_init_idempotent liveCluster 9 "10.9.9.9" 1234 rfl

/-- C10: enqueueing onto the apply queue returns false leaving the whole
queue unchanged when the queue is full or the payload exceeds the slot
buffer; on success the raft index, length and payload bytes are stored
verbatim in the slot at the tail with the applied flag clear, the other
slots are untouched, and the count grows by exactly one. -/
theorem c10_enqueue_apply_entry_contract :
    (∀ (maxApplyEntries dataCap raft_index : Nat) (data : List Nat)
       (st : ApplyQueue), maxApplyEntries ≤ st.apply_count →
       pgraft_enqueue_apply_entry maxApplyEntries dataCap raft_index data st
         = (false, st)) ∧
    (∀ (maxApplyEntries dataCap raft_index : Nat) (data : List Nat)
       (st : ApplyQueue), st.apply_count < maxApplyEntries →
       dataCap < data.length →
       pgraft_enqueue_apply_entry maxApplyEntries dataCap raft_index data st
         = (false, st)) ∧
    (∀ (maxApplyEntries dataCap raft_index : Nat) (data : List Nat)
       (st : ApplyQueue), st.apply_count < maxApplyEntries →
       data.length ≤ dataCap → st.apply_tail < st.apply_queue.length →
       (pgraft_enqueue_apply_entry maxApplyEntries dataCap raft_index data
          st).1 = true ∧
       (pgraft_enqueue_apply_entry maxApplyEntries dataCap raft_index data
          st).2.apply_queue[st.apply_tail]?
         = some { raft_index := raft_index, data := data,
                  data_len := data.length, applied := false } ∧
       (∀ j : Nat, j ≠ st.apply_tail →
         (pgraft_enqueue_apply_entry maxApplyEntries dataCap raft_index data
            st).2.apply_queue[j]? = st.apply_queue[j]?) ∧
       (pgraft_enqueue_apply_entry maxApplyEntries dataCap raft_index data
          st).2.apply_count = st.apply_count + 1 ∧
       (pgraft_enqueue_apply_entry maxApplyEntries dataCap raft_index data
          st).2.apply_tail = (st.apply_tail + 1) % maxApplyEntries ∧
       (pgraft_enqueue_apply_entry maxApplyEntries dataCap raft_index data
          st).2.apply_head = st.apply_head) := by
  refine ⟨?_, ?_, ?_⟩
  · intro m c r data st h
    simp [pgraft_enqueue_apply_entry, h]
  · intro m c r data st h1 h2
    simp [pgraft_enqueue_apply_entry, Nat.not_le.mpr h1, h2]
  · intro m c r data st h1 h2 h3
    refine ⟨?_, ?_, ?_, ?_, ?_, ?_⟩
    · simp [pgraft_enqueue_apply_entry, Nat.not_le.mpr h1, Nat.not_lt.mpr h2]
    · simp [pgraft_enqueue_apply_entry, Nat.not_le.mpr h1, Nat.not_lt.mpr h2]
      rw [listModify_get_eq]
      rw [List.getElem?_eq_getElem h3]
      simp
    · intro j hj
      simp [pgraft_enqueue_apply_entry, Nat.not_le.mpr h1, Nat.not_lt.mpr h2]
      exact listModify_get_ne _ _ _ _ hj
    · simp [pgraft_enqueue_apply_entry, Nat.not_le.mpr h1, Nat.not_lt.mpr h2]
    · simp [pgraft_enqueue_apply_entry, Nat.not_le.mpr h1, Nat.not_lt.mpr h2]
    · simp [pgraft_enqueue_apply_entry, Nat.not_le.mpr h1, Nat.not_lt.mpr h2]

/-- C10 witness: the theorem applied to a full queue, to an oversized
payload, and to a successful enqueue into slot 1 of a two-slot queue
(checking the untouched slot 0 as well). -/
theorem c10_enqueue_apply_entry_witness :
    pgraft_enqueue_apply_entry 5 8 7 [1, 2] fullApplyQueue
      = (false, fullApplyQueue) ∧
    pgraft_enqueue_apply_entry 4 2 7 [1, 2, 3] twoSlotApplyQueue
      = (false, twoSlotApplyQueue) ∧
    (pgraft_enqueue_apply_entry 4 8 7 [9, 9] twoSlotApplyQueue).1 = true ∧
    (pgraft_enqueue_apply_entry 4 8 7 [9, 9]
       twoSlotApplyQueue).2.apply_queue[twoSlotApplyQueue.apply_tail]?
      = some { raft_index := 7, data := [9, 9], data_len := 2,
               applied := false } ∧
    (pgraft_enqueue_apply_entry 4 8 7 [9, 9]
       twoSlotApplyQueue).2.apply_queue[0]?
      = twoSlotApplyQueue.apply_queue[0]? ∧
    (pgraft_enqueue_apply_entry 4 8 7 [9, 9]
       twoSlotApplyQueue).2.apply_count = twoSlotApplyQueue.apply_count + 1 ∧
    (pgraft_enqueue_apply_entry 4 8 7 [9, 9]
       twoSlotApplyQueue).2.apply_tail
      = (twoSlotApplyQueue.apply_tail + 1) % 4 ∧
    (pgraft_enqueue_apply_entry 4 8 7 [9, 9]
       twoSlotApplyQueue).2.apply_head = twoSlotApplyQueue.apply_head :=
  ⟨c10_enqueue_apply_entry_contract.1 5 8 7 [1, 2] fullApplyQueue
     (by decide),
   c10_enqueue_apply_entry_contract.2.1 4 2 7 [1, 2, 3] twoSlotApplyQueue
     (by decide) (by decide),
   (c10_enqueue_apply_entry_contract.2.2 4 8 7 [9, 9] twoSlotApplyQueue
      (by decide) (by decide) (by decide)).1,
   (c10_enqueue_apply_entry_contract.2.2 4 8 7 [9, 9] twoSlotApplyQueue
      (by decide) (by decide) (by decide)).2.1,
   (c10_enqueue_apply_entry_contract.2.2 4 8 7 [9, 9] twoSlotApplyQueue
      (by decide) (by decide) (by decide)).2.2.1 0 (by decide),
   (c10_enqueue_apply_entry_contract.2.2 4 8 7 [9, 9] twoSlotApplyQueue
      (by decide) (by decide) (by decide)).2.2.2.1,
   (c10_enqueue_apply_entry_contract.2.2 4 8 7 [9, 9] twoSlotApplyQueue
      (by decide) (by decide) (by decide)).2.2.2.2.1,
   (c10_enqueue_apply_entry_contract.2.2 4 8 7 [9, 9] twoSlotApplyQueue
      (by decide) (by decide) (by decide)).2.2.2.2.2⟩

end PgRaft
